import Mathlib

/-!
Verification development for the whisper-lambda request handler
(`src/main/app.py`).  The Python module is shallowly embedded: JSON values
become the `Json` inductive, the dynamic (fallible) dictionary accesses of
the source become `Except String` computations, the filesystem becomes an
association list from paths to byte lists, and the external library calls
(`json.loads`, `model.transcribe`, temporary-file naming, the environment)
become fields of a `Prims` parameter record.  `base64.b64decode`,
`urllib.parse.unquote` and `os.path.splitext` are given concrete executable
models.  Machine behaviour that no claim depends on (logging, non-ASCII
percent-decoding, floating-point JSON numbers) is noted where it is
abstracted.
-/

/-- JSON values, as delivered to the Lambda handler.  Numbers are modelled
as integers (no claim involves fractional numerics). -/
inductive Json where
  | null
  | bool (b : Bool)
  | num (n : Int)
  | str (s : String)
  | arr (elems : List Json)
  | obj (fields : List (String × Json))
deriving Repr

/-- Field lookup in a JSON object field list (first binding wins, as in a
Python dict built from parsed JSON, whose keys are unique). -/
def findField : List (String × Json) → String → Option Json
  | [], _ => none
  | (k, v) :: rest, key => if k = key then some v else findField rest key

/-- Lookup of field `k` when `j` is an object (`Json.lookup j k`). -/
def Json.lookup : Json → String → Option Json
  | .obj fs, k => findField fs k
  | _, _ => none

/-- Substring test, modelling the Python `in` operator on strings. -/
def containsSub (hay needle : String) : Bool :=
  (hay.splitOn needle).length ≠ 1

/-- Python truthiness of a JSON value (`bool(x)`). -/
def truthy : Json → Bool
  | .null => false
  | .bool b => b
  | .num n => n ≠ 0
  | .str s => s ≠ ""
  | .arr xs => !xs.isEmpty
  | .obj fs => !fs.isEmpty

/-- The Python membership test `key in x` for a string key: key lookup on
dicts, substring test on strings, element equality on lists, and a
`TypeError` on anything else. -/
def hasKeyP : Json → String → Except String Bool
  | .obj fs, k => .ok (findField fs k).isSome
  | .str s, k => .ok (containsSub s k)
  | .arr xs, k =>
      .ok (xs.any fun j => match j with | .str s => s = k | _ => false)
  | _, _ => .error "TypeError: argument of type is not iterable"

/-- The Python subscript `x[key]` for a string key: dict lookup (raising
`KeyError` when absent), `TypeError` on every non-dict. -/
def getItem : Json → String → Except String Json
  | .obj fs, k =>
      match findField fs k with
      | some v => .ok v
      | none => .error ("KeyError: " ++ k)
  | _, _ => .error "TypeError: not subscriptable by str"

/-- The Python call `x.get(key, default)`: defined on dicts, an
`AttributeError` on every other value. -/
def dictGetD : Json → String → Json → Except String Json
  | .obj fs, k, d => .ok ((findField fs k).getD d)
  | _, _, _ => .error "AttributeError: object has no attribute get"

/-- Arguments that the source hands to `json.loads` / `base64.b64decode`
must be strings; any other JSON value raises a `TypeError`. -/
def asStrE : Json → Except String String
  | .str s => .ok s
  | _ => .error "TypeError: expected str"

/-- Metadata fields (`contentType`, `filename`) as the source consumes
them: a JSON string passes through, absence and JSON `null` (Python
`None`) mean no value.  (Restriction: non-string, non-null metadata values
are modelled as absent; no claim exercises them.) -/
def jsonToOptStr : Json → Option String
  | .str s => some s
  | _ => none

/-- The optional string value of metadata field `k` of the logical body
`b`. -/
def metaStr (b : Json) (k : String) : Option String :=
  match b.lookup k with
  | some (.str s) => some s
  | _ => none

/-! ### base64 (model of `base64.b64decode` on well-formed input) -/

/-- Value of a character in the standard base64 alphabet. -/
def b64val : Char → Option Nat
  | c =>
    if 'A' ≤ c ∧ c ≤ 'Z' then some (c.toNat - 65)
    else if 'a' ≤ c ∧ c ≤ 'z' then some (c.toNat - 97 + 26)
    else if '0' ≤ c ∧ c ≤ '9' then some (c.toNat - 48 + 52)
    else if c = '+' then some 62
    else if c = '/' then some 63
    else none

/-- Decode base64 quads into bytes; `=` padding is accepted only at the
end.  Mirrors `binascii.a2b_base64` on inputs made of alphabet characters
and padding. -/
def decodeQuads : List Char → Except String (List Nat)
  | [] => .ok []
  | a :: b :: c :: d :: rest =>
    match b64val a, b64val b with
    | some va, some vb =>
      if c = '=' ∧ d = '=' ∧ rest = [] then
        .ok [va * 4 + vb / 16]
      else
        match b64val c with
        | some vc =>
          if d = '=' ∧ rest = [] then
            .ok [va * 4 + vb / 16, (vb % 16) * 16 + vc / 4]
          else
            match b64val d with
            | some vd => do
              let tail ← decodeQuads rest
              .ok ([va * 4 + vb / 16, (vb % 16) * 16 + vc / 4,
                    (vc % 4) * 64 + vd] ++ tail)
            | none => .error "binascii.Error: Invalid base64-encoded string"
        | none => .error "binascii.Error: Invalid base64-encoded string"
    | _, _ => .error "binascii.Error: Invalid base64-encoded string"
  | _ => .error "binascii.Error: Invalid base64-encoded string"

/-- Model of `base64.b64decode` (default `validate=False`: characters
outside the alphabet are discarded before decoding; a non-multiple-of-4
count of significant characters is a padding error). -/
def b64decode (s : String) : Except String (List Nat) :=
  let cs := s.toList.filter fun c => (b64val c).isSome ∨ c = '='
  if cs.length % 4 = 0 then decodeQuads cs
  else .error "binascii.Error: Invalid base64-encoded string"

/-- Bytes viewed as a string, as `json.loads` sees a decoded `body`.
(Models the UTF-8 decode for the ASCII payloads the claims use.) -/
def bytesToStr (l : List Nat) : String :=
  String.mk (l.map Char.ofNat)

/-! ### `urllib.parse.unquote` and `os.path.splitext` -/

/-- Hexadecimal value of a character, if any. -/
def hexVal : Char → Option Nat
  | c =>
    if '0' ≤ c ∧ c ≤ '9' then some (c.toNat - 48)
    else if 'a' ≤ c ∧ c ≤ 'f' then some (c.toNat - 97 + 10)
    else if 'A' ≤ c ∧ c ≤ 'F' then some (c.toNat - 65 + 10)
    else none

/-- Percent-decoding over characters: `%XX` with two hex digits becomes the
character with that code, everything else is kept.  (Models
`urllib.parse.unquote` byte-per-byte; multi-byte UTF-8 sequences are out of
scope of every claim.) -/
def unquoteChars : List Char → List Char
  | [] => []
  | '%' :: a :: b :: rest =>
    match hexVal a, hexVal b with
    | some x, some y => Char.ofNat (16 * x + y) :: unquoteChars rest
    | _, _ => '%' :: unquoteChars (a :: b :: rest)
  | c :: rest => c :: unquoteChars rest

/-- Model of `urllib.parse.unquote`. -/
def unquote (s : String) : String :=
  String.mk (unquoteChars s.toList)

/-- The final path component of `p` (the part after the last `/`). -/
def lastComponent (p : String) : List Char :=
  (p.toList.reverse.takeWhile (· ≠ '/')).reverse

/-- The extension part of `os.path.splitext` (posix semantics): the
substring from the last dot of the last path component, provided some
character before that dot within the component is not itself a dot (so a
basename made of leading dots only, such as `.bashrc`, has no extension). -/
def splitextExt (p : String) : String :=
  if ((lastComponent p).reverse).contains '.' then
    if (((lastComponent p).reverse).dropWhile (· ≠ '.')).tail.any (· ≠ '.')
    then String.mk ('.' :: (((lastComponent p).reverse).takeWhile
        (· ≠ '.')).reverse)
    else ""
  else ""

/-! ### Extension resolution (`MIME_TO_EXT`, `get_file_extension`) -/

/-- The fixed MIME-to-extension map of `src/main/app.py`. -/
def MIME_TO_EXT : List (String × String) :=
  [ ("audio/wav", ".wav"),
    ("audio/x-wav", ".wav"),
    ("audio/wave", ".wav"),
    ("audio/mp3", ".mp3"),
    ("audio/mpeg", ".mp3"),
    ("audio/ogg", ".ogg"),
    ("audio/flac", ".flac"),
    ("audio/x-flac", ".flac"),
    ("audio/m4a", ".m4a"),
    ("audio/x-m4a", ".m4a"),
    ("audio/mp4", ".m4a"),
    ("audio/x-mp4", ".m4a"),
    ("audio/aac", ".aac"),
    ("audio/webm", ".webm") ]

/-- Lookup in a string-to-string association list. -/
def lookupExt : List (String × String) → String → Option String
  | [], _ => none
  | (k, v) :: rest, key => if k = key then some v else lookupExt rest key

/-- Model of `get_file_extension(content_type, filename)` in
`src/main/app.py`:
the mapped extension when the content type is truthy and known; else the
(URL-decoded) filename extension when the filename is truthy and its
extension is non-empty; else `.wav`. -/
def get_file_extension (content_type filename : Option String) : String :=
  -- if content_type and content_type in MIME_TO_EXT: return MIME_TO_EXT[content_type]
  match content_type.bind (fun ct =>
      if ct = "" then none else lookupExt MIME_TO_EXT ct) with
  | some ext => ext
  | none =>
    -- if filename: decoded = unquote(filename); _, ext = splitext(decoded); if ext: return ext
    match filename with
    | some fn =>
      if fn = "" then ".wav"
      else
        let ext := splitextExt (unquote fn)
        if ext = "" then ".wav" else ext
    | none => ".wav"

example : get_file_extension none none = ".wav" := by rfl
example : get_file_extension (some "audio/mpeg") (some "x.ogg") = ".mp3" := by rfl
example : get_file_extension none (some "a%20b.mp3") = ".mp3" := by rfl
example : get_file_extension none (some ".bashrc") = ".wav" := by rfl
example : b64decode "" = .ok [] := by rfl
example : b64decode "e30=" = .ok [123, 125] := by rfl
example : b64decode "AAAA" = .ok [0, 0, 0] := by rfl

/-! ### Environment primitives and the filesystem -/

/-- External capabilities of the handler process, abstracted as plain
functions: the JSON parser, the loaded whisper model (a function of the
temporary file path and of the bytes stored at it), the fresh-name choice
of `tempfile.NamedTemporaryFile` for a given suffix, a possibly injected
failure of the file write, and the `MODEL_SIZE` environment variable. -/
structure Prims where
  jsonLoads : String → Except String Json
  transcribe : String → List Nat → Except String Json
  tempName : String → String
  writeErr : Option String
  modelSizeEnv : Option String

/-- Model of `MODEL_SIZE = os.environ.get("MODEL_SIZE", "tiny.en")`. -/
def MODEL_SIZE (p : Prims) : String :=
  p.modelSizeEnv.getD "tiny.en"

/-- The filesystem, as the paths that exist with their byte contents. -/
abbrev FS := List (String × List Nat)

/-- Create or overwrite a file. -/
def insertFS (fs : FS) (path : String) (data : List Nat) : FS :=
  (path, data) :: fs.filter (fun e => e.1 ≠ path)

/-- Model of `os.remove`. -/
def removeFS (fs : FS) (path : String) : FS :=
  fs.filter (fun e => e.1 ≠ path)

/-- Model of `os.path.exists`. -/
def containsFS (fs : FS) (path : String) : Bool :=
  fs.any (fun e => e.1 = path)

/-- Contents of the file at `path`, if it exists. -/
def lookupFS : FS → String → Option (List Nat)
  | [], _ => none
  | (q, d) :: rest, path => if q = path then some d else lookupFS rest path

/-! ### The request handler (`handler` of `src/main/app.py`) -/

/-- A response envelope.  The source serializes `body` with `json.dumps`;
the envelope is modelled before that serialization. -/
structure Response where
  statusCode : Nat
  body : Json
deriving Repr

/-- The fixed 400 response for a missing `audio` field. -/
def resp400 : Response :=
  ⟨400, .obj [("error", .str "No audio data provided")]⟩

/-- The catch-all 500 response carrying the stringified exception. -/
def resp500 (e : String) : Response :=
  ⟨500, .obj [("error", .str e)]⟩

/-- Everything `handler` produces and leaves behind: the response, the
final filesystem, the `model.transcribe` invocations that happened (path
and the bytes on disk at that path), and the temporary file path, when one
was created. -/
structure HandlerResult where
  resp : Response
  fs : FS
  calls : List (String × List Nat)
  tempPath : Option String
deriving Repr

/-- Lines 83–110 of `app.py`: determine the invocation shape and extract
the decoded audio bytes plus the optional metadata, or produce the early
400 response (`Sum.inl`).  Both source branches run the same
extract-or-400 block on the resolved logical body, duplicated inline in
the source for the gateway and the direct shape. -/
def parseStage (p : Prims) (event : Json) :
    Except String (Sum Response (List Nat × Option String × Option String)) := do
  -- if "body" in event:
  let hasBody ← hasKeyP event "body"
  if hasBody then
    -- if event.get("isBase64Encoded", False): body = json.loads(b64decode(event["body"]))
    -- else: body = json.loads(event["body"])
    let enc ← dictGetD event "isBase64Encoded" (.bool false)
    let body ←
      if truthy enc then do
        let bytes ← b64decode (← asStrE (← getItem event "body"))
        p.jsonLoads (bytesToStr bytes)
      else do
        p.jsonLoads (← asStrE (← getItem event "body"))
    -- if "audio" in body: audio_data = b64decode(body["audio"]); ... else: return 400
    let hasAudio ← hasKeyP body "audio"
    if hasAudio then
      let audio ← b64decode (← asStrE (← getItem body "audio"))
      let ct ← dictGetD body "contentType" .null
      let fn ← dictGetD body "filename" .null
      return .inr (audio, jsonToOptStr ct, jsonToOptStr fn)
    else
      return .inl resp400
  else
    -- direct Lambda invocation: same block on the event itself
    let hasAudio ← hasKeyP event "audio"
    if hasAudio then
      let audio ← b64decode (← asStrE (← getItem event "audio"))
      let ct ← dictGetD event "contentType" .null
      let fn ← dictGetD event "filename" .null
      return .inr (audio, jsonToOptStr ct, jsonToOptStr fn)
    else
      return .inl resp400

/-- The resolved extension without its leading dot
(`file_ext[1:] if file_ext.startswith(".") else file_ext`). -/
def stripDot (s : String) : String :=
  match s.toList with
  | '.' :: rest => String.mk rest
  | _ => s

/-- The value of `result["text"]` must be sliceable for the
`transcription[:50]` log
line that follows the response construction; Python slicing raises a
`TypeError` on anything but strings and lists. -/
def sliceable : Json → Bool
  | .str _ => true
  | .arr _ => true
  | _ => false

/-- Lines 121–139 of `app.py`, the inner `try` body: run the model on the
temporary file (reading the bytes stored on disk at `path`) and build the
200 response from `result["text"]`.  Returns the outcome together with the
`model.transcribe` invocations performed. -/
def transcribeStep (p : Prims) (ext path : String) (fs2 : FS) :
    Except String Response × List (String × List Nat) :=
  match lookupFS fs2 path with
  | none => (.error "FileNotFoundError", [])
  | some contents =>
    -- result = model.transcribe(temp_audio_path)
    match p.transcribe path contents with
    | .error e => (.error e, [(path, contents)])
    | .ok result =>
      -- transcription = result["text"]
      match getItem result "text" with
      | .error e => (.error e, [(path, contents)])
      | .ok t =>
        if sliceable t then
          (.ok ⟨200, .obj
              [ ("transcription", t),
                ("model", .str (MODEL_SIZE p)),
                ("fileType", .str (stripDot ext)) ]⟩,
           [(path, contents)])
        else
          -- logger.info(transcription[:50]) raised a TypeError
          (.error "TypeError: unsliceable transcription", [(path, contents)])

/-- Lines 116–144 of `app.py`: create the temporary file with the chosen
suffix (`delete=False`, so it exists from this point on), write the audio
bytes into it, run the inner `try` whose `finally` removes the file.  A
failing write happens before the inner `try` is entered, so the `finally`
cleanup does not cover it. -/
def fileStage (p : Prims) (audio : List Nat) (ext : String) (fs : FS) :
    Except String Response × FS × List (String × List Nat) × Option String :=
  let path := p.tempName ext
  -- with NamedTemporaryFile(suffix=file_ext, delete=False) as temp_audio:
  let fs1 := insertFS fs path []
  match p.writeErr with
  | some e =>
    -- temp_audio.write(audio_data) raised: the file stays behind
    (.error e, fs1, [], some path)
  | none =>
    let fs2 := insertFS fs1 path audio
    let step := transcribeStep p ext path fs2
    -- finally: if os.path.exists(temp_audio_path): os.remove(temp_audio_path)
    let fs3 := if containsFS fs2 path then removeFS fs2 path else fs2
    (step.1, fs3, step.2, some path)

/-- Model of `handler(event, context)` in `src/main/app.py`: the whole
body runs
inside one `try`; every escaping exception becomes the 500 envelope. -/
def handler (p : Prims) (event : Json) (fs : FS) : HandlerResult :=
  match parseStage p event with
  | .error e => ⟨resp500 e, fs, [], none⟩
  | .ok (.inl r) => ⟨r, fs, [], none⟩
  | .ok (.inr (audio, ct, fn)) =>
    let ext := get_file_extension ct fn
    match fileStage p audio ext fs with
    | (.ok r, fs2, calls, tp) => ⟨r, fs2, calls, tp⟩
    | (.error e, fs2, calls, tp) => ⟨resp500 e, fs2, calls, tp⟩

/-- The exception that reaches the top-level `except Exception` block, if
any: a parse-stage failure or a file/model-stage failure. -/
def raisedExc (p : Prims) (event : Json) (fs : FS) : Option String :=
  match parseStage p event with
  | .error e => some e
  | .ok (.inl _) => none
  | .ok (.inr (audio, ct, fn)) =>
    match (fileStage p audio (get_file_extension ct fn) fs).1 with
    | .error e => some e
    | .ok _ => none

/-- The logical body of an event, as computed by lines 83–89 of `app.py`:
the event itself for a direct invocation; for a gateway-wrapped event the
parsed `body`, base64-decoded first exactly when `isBase64Encoded` is
truthy (absent meaning false). -/
def logicalBody (p : Prims) (event : Json) : Except String Json := do
  let hasBody ← hasKeyP event "body"
  if hasBody then
    let enc ← dictGetD event "isBase64Encoded" (.bool false)
    if truthy enc then do
      let bytes ← b64decode (← asStrE (← getItem event "body"))
      p.jsonLoads (bytesToStr bytes)
    else do
      p.jsonLoads (← asStrE (← getItem event "body"))
  else
    return event

/-- The extract-audio-or-400 block (lines 91–103 / 105–110 of `app.py`),
applied to a resolved logical body. -/
def extractAudio (b : Json) :
    Except String (Sum Response (List Nat × Option String × Option String)) := do
  let hasAudio ← hasKeyP b "audio"
  if hasAudio then
    let audio ← b64decode (← asStrE (← getItem b "audio"))
    let ct ← dictGetD b "contentType" .null
    let fn ← dictGetD b "filename" .null
    return .inr (audio, jsonToOptStr ct, jsonToOptStr fn)
  else
    return .inl resp400

/-! ### Claim-side definitions (worded from the specification) -/

/-- Modelled from the spec wording of the shape dispatch: identical to the
code-side `logicalBody` except that the base64 branch is taken exactly
when `isBase64Encoded` is the boolean `true` (absent meaning false),
rather than when it is truthy. -/
def logicalBodyClaimed (p : Prims) (event : Json) : Except String Json := do
  let hasBody ← hasKeyP event "body"
  if hasBody then
    let enc ← dictGetD event "isBase64Encoded" (.bool false)
    match enc with
    | .bool true => do
      let bytes ← b64decode (← asStrE (← getItem event "body"))
      p.jsonLoads (bytesToStr bytes)
    | _ => do
      p.jsonLoads (← asStrE (← getItem event "body"))
  else
    return event

/-- Modelled from the spec wording of the filename extension: the
substring of the URL-decoded filename starting at the last dot of its last
path component (empty when that component has no dot). -/
def claimedExt (fn : String) : String :=
  let rb := (lastComponent (unquote fn)).reverse
  if rb.contains '.' then String.mk ('.' :: (rb.takeWhile (· ≠ '.')).reverse)
  else ""

/-- A content type that is absent, empty, or not in the known mapping. -/
def ctUnmapped : Option String → Prop
  | none => True
  | some s => s = "" ∨ lookupExt MIME_TO_EXT s = none

/-- Replace (or add) one binding of an object field list. -/
def setFields : List (String × Json) → String → Json → List (String × Json)
  | [], k, v => [(k, v)]
  | (q, w) :: rest, k, v =>
    if q = k then (k, v) :: rest else (q, w) :: setFields rest k v

/-- An event that differs from `j` only in the top-level field `k`. -/
def setField : Json → String → Json → Json
  | .obj fs, k, v => .obj (setFields fs k v)
  | j, _, _ => j

/-- Whether `s` begins with a dot. -/
def startsWithDot (s : String) : Bool :=
  match s.toList with
  | '.' :: _ => true
  | _ => false

/-! ### Concrete environment instances used by witnesses -/

/-- A small honest fragment of `json.loads`: parses the object literals the
witnesses need and rejects everything else. -/
def jsonLoadsStub : String → Except String Json :=
  fun s =>
    if s = "{}" then .ok (.obj [])
    else .error "json.decoder.JSONDecodeError: Expecting value"

/-- A stub model that transcribes everything as a fixed sentence. -/
def transcribeStub : String → List Nat → Except String Json :=
  fun _ _ => .ok (.obj [("text", .str "hello world")])

/-- A fixed temporary-name choice. -/
def tempNameStub : String → String :=
  fun ext => "/tmp/tmpaudio" ++ ext

/-- Environment where every call succeeds. -/
def pGood : Prims := ⟨jsonLoadsStub, transcribeStub, tempNameStub, none, none⟩

/-- Environment where writing the audio bytes to the temporary file
raises. -/
def pWriteFail : Prims :=
  ⟨jsonLoadsStub, transcribeStub, tempNameStub,
   some "OSError: No space left on device", none⟩

/-- Environment where the model call raises. -/
def pModelFail : Prims :=
  ⟨jsonLoadsStub, fun _ _ => .error "RuntimeError: boom", tempNameStub,
   none, none⟩

/-- Direct-invocation event carrying three zero bytes of wav audio. -/
def evDirect : Json :=
  .obj [("audio", .str "AAAA"), ("contentType", .str "audio/wav")]

/-- The empty event. -/
def evEmpty : Json := .obj []

/-- Gateway event whose `body` base64-decodes to `{}` and whose
`isBase64Encoded` flag is the number 1 (truthy but not the boolean
`true`). -/
def evB64Num : Json :=
  .obj [("body", .str "e30="), ("isBase64Encoded", .num 1)]

/-- Gateway event whose body parses to `{}` while a well-formed top-level
`audio` field is also present. -/
def evGatewayTop : Json :=
  .obj [("body", .str "{}"), ("audio", .str "AAAA")]

/-- Direct event whose `audio` field is the empty string. -/
def evEmptyAudio : Json := .obj [("audio", .str "")]

example :
    handler pGood evDirect [] =
      ⟨⟨200, .obj [("transcription", .str "hello world"),
                   ("model", .str "tiny.en"), ("fileType", .str "wav")]⟩,
       [], [("/tmp/tmpaudio.wav", [0, 0, 0])], some "/tmp/tmpaudio.wav"⟩ := by
  rfl

example :
    handler pGood evEmpty [] = ⟨resp400, [], [], none⟩ := by rfl

example :
    (handler pWriteFail evDirect []).fs =
      [("/tmp/tmpaudio.wav", [])] := by rfl

example :
    (handler pModelFail evDirect []).resp = resp500 "RuntimeError: boom" ∧
    (handler pModelFail evDirect []).fs = [] := by exact ⟨rfl, rfl⟩

example :
    (handler pGood evB64Num []).resp = resp400 := by rfl

example :
    (handler pGood evGatewayTop []).resp = resp400 := by rfl

example :
    handler pGood evEmptyAudio [] =
      ⟨⟨200, .obj [("transcription", .str "hello world"),
                   ("model", .str "tiny.en"), ("fileType", .str "wav")]⟩,
       [], [("/tmp/tmpaudio.wav", [])], some "/tmp/tmpaudio.wav"⟩ := by
  rfl

/-! ### Helper lemmas -/

theorem containsFS_insertFS (fs : FS) (path : String) (d : List Nat) :
    containsFS (insertFS fs path d) path = true := by
  simp [containsFS, insertFS]

theorem containsFS_removeFS (fs : FS) (path : String) :
    containsFS (removeFS fs path) path = false := by
  simp only [containsFS, removeFS]
  rw [List.any_eq_false]
  intro e he
  have h2 := (List.mem_filter.mp he).2
  simp at h2 ⊢
  exact h2

theorem lookupFS_insertFS (fs : FS) (path : String) (d : List Nat) :
    lookupFS (insertFS fs path d) path = some d := by
  simp [lookupFS, insertFS]

/-- Binding a success reduces. -/
theorem ok_bind {e a b : Type} (x : a) (f : a → Except e b) :
    (Except.ok x >>= f : Except e b) = f x := rfl

/-- The parse stage is the logical-body computation followed by the
extract-audio-or-400 block. -/
theorem parseStage_factor (p : Prims) (event : Json) :
    parseStage p event = logicalBody p event >>= extractAudio := by
  unfold parseStage logicalBody
  cases hb : hasKeyP event "body" with
  | error e => rfl
  | ok hasBody =>
    cases hasBody with
    | false => rfl
    | true =>
      cases he : dictGetD event "isBase64Encoded" (.bool false) with
      | error e => rfl
      | ok enc =>
        simp only [ok_bind]
        cases htr : truthy enc with
        | true =>
          cases hgi : getItem event "body" with
          | error e => rfl
          | ok v =>
            simp only [ok_bind]
            cases has : asStrE v with
            | error e => rfl
            | ok s =>
              simp only [ok_bind]
              cases hbd : b64decode s with
              | error e => rfl
              | ok bytes =>
                simp only [ok_bind]
                cases hjl : p.jsonLoads (bytesToStr bytes) with
                | error e => rfl
                | ok y => rfl
        | false =>
          cases hgi : getItem event "body" with
          | error e => rfl
          | ok v =>
            simp only [ok_bind]
            cases has : asStrE v with
            | error e => rfl
            | ok s =>
              simp only [ok_bind]
              cases hjl : p.jsonLoads s with
              | error e => rfl
              | ok y => rfl

/-- Values found in an association list whose values all begin with a dot
begin with a dot. -/
theorem lookupExt_dot (l : List (String × String)) (ct e : String)
    (hvals : ∀ kv ∈ l, startsWithDot kv.2 = true)
    (h : lookupExt l ct = some e) : startsWithDot e = true := by
  induction l with
  | nil => exact absurd h (by simp [lookupExt])
  | cons kv rest ih =>
    simp only [lookupExt] at h
    split at h
    · cases h
      exact hvals kv (List.mem_cons_self kv rest)
    · exact ih (fun x hx => hvals x (List.mem_cons_of_mem kv hx)) h

theorem mime_vals_dot : ∀ kv ∈ MIME_TO_EXT, startsWithDot kv.2 = true := by
  decide

theorem lookupExt_empty_none : lookupExt MIME_TO_EXT "" = none := by decide

/-- An unmapped content type never takes the mapping branch of
`get_file_extension`. -/
theorem ct_branch_none (ct : Option String) (h : ctUnmapped ct) :
    ct.bind (fun c => if c = "" then none else lookupExt MIME_TO_EXT c)
      = none := by
  cases ct with
  | none => rfl
  | some s =>
    by_cases hs : s = ""
    · simp [hs]
    · cases h with
      | inl h0 => exact absurd h0 hs
      | inr h1 => simp [hs, h1]

theorem findField_setFields_ne (fs : List (String × Json)) (k q : String)
    (v : Json) (h : q ≠ k) :
    findField (setFields fs k v) q = findField fs q := by
  induction fs with
  | nil =>
    simp only [setFields, findField]
    rw [if_neg (fun hh : k = q => h hh.symm)]
  | cons kv rest ih =>
    cases kv with
    | mk a b =>
      simp only [setFields]
      split
      · rename_i ha
        simp only [findField]
        rw [if_neg (fun hh : k = q => h hh.symm), ha,
          if_neg (fun hh : k = q => h hh.symm)]
      · simp only [findField]
        rw [ih]

/-- The parse stage of a gateway-wrapped event reads only the `body` and
`isBase64Encoded` fields of the event: changing any other top-level field
changes nothing. -/
theorem parseStage_setField (p : Prims) (fs : List (String × Json))
    (k : String) (v : Json)
    (hk1 : k ≠ "body") (hk2 : k ≠ "isBase64Encoded")
    (hb : (findField fs "body").isSome = true) :
    parseStage p (setField (.obj fs) k v) = parseStage p (.obj fs) := by
  have h1 : findField (setFields fs k v) "body" = findField fs "body" :=
    findField_setFields_ne fs k "body" v (Ne.symm hk1)
  have h2 : findField (setFields fs k v) "isBase64Encoded"
      = findField fs "isBase64Encoded" :=
    findField_setFields_ne fs k "isBase64Encoded" v (Ne.symm hk2)
  unfold parseStage
  simp only [setField, hasKeyP, getItem, dictGetD, h1, h2]
  cases hv : findField fs "body" with
  | none => rw [hv] at hb; exact absurd hb (by simp)
  | some bv => rfl

/-- The handler consumes the event only through the parse stage. -/
theorem handler_congr (p : Prims) (e1 e2 : Json) (fs : FS)
    (h : parseStage p e1 = parseStage p e2) :
    handler p e1 fs = handler p e2 fs := by
  unfold handler
  rw [h]

/-- Binding a failure reduces. -/
theorem error_bind {e a b : Type} (x : e) (f : a → Except e b) :
    (Except.error x >>= f : Except e b) = Except.error x := rfl

/-- A successful inner `try` body always carries status 200. -/
theorem transcribeStep_status (p : Prims) (ext path : String) (fs2 : FS)
    (r : Response) (calls : List (String × List Nat))
    (h : transcribeStep p ext path fs2 = (.ok r, calls)) :
    r.statusCode = 200 := by
  unfold transcribeStep at h
  split at h
  · exact Except.noConfusion (congrArg Prod.fst h)
  · split at h
    · exact Except.noConfusion (congrArg Prod.fst h)
    · split at h
      · exact Except.noConfusion (congrArg Prod.fst h)
      · split at h
        · cases Except.ok.inj (congrArg Prod.fst h)
          rfl
        · exact Except.noConfusion (congrArg Prod.fst h)

/-- Evaluation of the inner `try` body when the model succeeds and returns
a string `text`. -/
theorem transcribeStep_eval (p : Prims) (ext path : String) (fs2 : FS)
    (contents : List Nat) (result : Json) (t : String)
    (hlk : lookupFS fs2 path = some contents)
    (htr : p.transcribe path contents = .ok result)
    (hgt : getItem result "text" = .ok (.str t)) :
    transcribeStep p ext path fs2 =
      (.ok ⟨200, .obj
          [ ("transcription", .str t),
            ("model", .str (MODEL_SIZE p)),
            ("fileType", .str (stripDot ext)) ]⟩,
       [(path, contents)]) := by
  unfold transcribeStep
  simp only [hlk, htr, hgt]
  rfl

/-- Behaviour of `fileStage` when the write fails: the error propagates and the file
(created empty on open) remains on disk. -/
theorem fileStage_write (p : Prims) (audio : List Nat) (ext : String)
    (fs : FS) (e : String) (hw : p.writeErr = some e) :
    fileStage p audio ext fs =
      (.error e, insertFS fs (p.tempName ext) [], [],
       some (p.tempName ext)) := by
  unfold fileStage
  rw [hw]

/-- Behaviour of `fileStage` when the write succeeds: run the inner `try` body on the
written file, then remove the file. -/
theorem fileStage_noWrite (p : Prims) (audio : List Nat) (ext : String)
    (fs : FS) (hw : p.writeErr = none) :
    fileStage p audio ext fs =
      ((transcribeStep p ext (p.tempName ext)
          (insertFS (insertFS fs (p.tempName ext) []) (p.tempName ext) audio)).1,
       removeFS (insertFS (insertFS fs (p.tempName ext) []) (p.tempName ext)
          audio) (p.tempName ext),
       (transcribeStep p ext (p.tempName ext)
          (insertFS (insertFS fs (p.tempName ext) []) (p.tempName ext) audio)).2,
       some (p.tempName ext)) := by
  unfold fileStage
  rw [hw]
  simp [containsFS_insertFS]

/-- Behaviour of `handler` when the parse stage raises. -/
theorem handler_error (p : Prims) (event : Json) (fs : FS) (e : String)
    (hps : parseStage p event = .error e) :
    handler p event fs = ⟨resp500 e, fs, [], none⟩ := by
  unfold handler
  rw [hps]

/-- Behaviour of `handler` when the parse stage returns early. -/
theorem handler_inl (p : Prims) (event : Json) (fs : FS) (r : Response)
    (hps : parseStage p event = .ok (.inl r)) :
    handler p event fs = ⟨r, fs, [], none⟩ := by
  unfold handler
  rw [hps]

/-- Behaviour of `handler` when the parse stage yields audio and the file
stage succeeds. -/
theorem handler_inr_ok (p : Prims) (event : Json) (fs : FS)
    (audio : List Nat) (ct fn : Option String)
    (r : Response) (fs2 : FS)
    (calls : List (String × List Nat)) (tp : Option String)
    (hps : parseStage p event = .ok (.inr (audio, ct, fn)))
    (hfs : fileStage p audio (get_file_extension ct fn) fs
        = (.ok r, fs2, calls, tp)) :
    handler p event fs = ⟨r, fs2, calls, tp⟩ := by
  unfold handler
  simp only [hps, hfs]

/-- Behaviour of `handler` when the parse stage yields audio and the file
stage raises. -/
theorem handler_inr_error (p : Prims) (event : Json) (fs : FS)
    (audio : List Nat) (ct fn : Option String)
    (e : String) (fs2 : FS)
    (calls : List (String × List Nat)) (tp : Option String)
    (hps : parseStage p event = .ok (.inr (audio, ct, fn)))
    (hfs : fileStage p audio (get_file_extension ct fn) fs
        = (.error e, fs2, calls, tp)) :
    handler p event fs = ⟨resp500 e, fs2, calls, tp⟩ := by
  unfold handler
  simp only [hps, hfs]

/-- The early return of the extract block is always the fixed 400
response. -/
theorem extractAudio_inl (b : Json) (r : Response)
    (h : extractAudio b = .ok (.inl r)) : r = resp400 := by
  unfold extractAudio at h
  cases hk : hasKeyP b "audio" with
  | error e => rw [hk] at h; exact Except.noConfusion h
  | ok hasAudio =>
    rw [hk] at h
    simp only [ok_bind] at h
    cases hasAudio with
    | false =>
      simp only [Bool.false_eq_true, if_false] at h
      cases h
      rfl
    | true =>
      simp only [if_true] at h
      cases hgi : getItem b "audio" with
      | error e => rw [hgi] at h; exact Except.noConfusion h
      | ok v =>
        rw [hgi] at h
        simp only [ok_bind] at h
        cases has : asStrE v with
        | error e => rw [has] at h; exact Except.noConfusion h
        | ok s =>
          rw [has] at h
          simp only [ok_bind] at h
          cases hbd : b64decode s with
          | error e => rw [hbd] at h; exact Except.noConfusion h
          | ok audio =>
            rw [hbd] at h
            simp only [ok_bind] at h
            cases hct : dictGetD b "contentType" .null with
            | error e => rw [hct] at h; exact Except.noConfusion h
            | ok ct =>
              rw [hct] at h
              simp only [ok_bind] at h
              cases hfn : dictGetD b "filename" .null with
              | error e => rw [hfn] at h; exact Except.noConfusion h
              | ok fn =>
                rw [hfn] at h
                simp only [ok_bind] at h
                cases h

/-- An early return of the whole parse stage is always the fixed 400
response. -/
theorem parseStage_inl (p : Prims) (event : Json) (r : Response)
    (h : parseStage p event = .ok (.inl r)) : r = resp400 := by
  rw [parseStage_factor] at h
  cases hlb : logicalBody p event with
  | error e => rw [hlb] at h; exact Except.noConfusion h
  | ok b =>
    rw [hlb] at h
    simp only [ok_bind] at h
    exact extractAudio_inl b r h

/-- The filename-extension model either is empty or begins with a dot. -/
theorem splitextExt_dot (s : String) :
    splitextExt s = "" ∨ startsWithDot (splitextExt s) = true := by
  unfold splitextExt
  by_cases h1 : ((lastComponent s).reverse).contains '.' = true
  · rw [if_pos h1]
    by_cases h2 : ((((lastComponent s).reverse).dropWhile
        (· ≠ '.')).tail.any (· ≠ '.')) = true
    · rw [if_pos h2]
      right
      rfl
    · rw [if_neg h2]
      left
      rfl
  · rw [if_neg h1]
    left
    rfl

/-- A logical body without an `audio` key makes `handler` return the
fixed 400 response, leave the filesystem untouched, create no temporary
file and invoke no model. -/
theorem handler_missing_audio (p : Prims) (event : Json) (fs : FS)
    (b : Json)
    (hlb : logicalBody p event = .ok b)
    (hna : hasKeyP b "audio" = .ok false) :
    handler p event fs = ⟨resp400, fs, [], none⟩ := by
  have hps : parseStage p event = .ok (.inl resp400) := by
    rw [parseStage_factor, hlb]
    simp only [ok_bind]
    unfold extractAudio
    rw [hna]
    rfl
  exact handler_inl p event fs resp400 hps

/-- The metadata extraction of the parse stage agrees with `metaStr`. -/
theorem metaStr_eq (bfs : List (String × Json)) (k : String) :
    jsonToOptStr ((findField bfs k).getD .null) = metaStr (.obj bfs) k := by
  unfold metaStr
  simp only [Json.lookup]
  cases h : findField bfs k with
  | none => rfl
  | some v => cases v <;> rfl

/-- The inner `try` body always invokes the model exactly once on the
bytes stored at the temporary path, whatever the outcome. -/
theorem transcribeStep_calls (p : Prims) (ext path : String) (fs2 : FS)
    (contents : List Nat) (hlk : lookupFS fs2 path = some contents) :
    (transcribeStep p ext path fs2).2 = [(path, contents)] := by
  unfold transcribeStep
  simp only [hlk]
  split
  · rfl
  · split
    · rfl
    · split
      · rfl
      · rfl

/-! ### Claims -/

/-- C6: for every content type present in the fixed MIME-to-extension
mapping and for every filename argument, `get_file_extension` returns the
extension mapped to that content type, regardless of the filename. -/
theorem claim_C6_mapped_content_type (ct ext : String) (fn : Option String)
    (h : lookupExt MIME_TO_EXT ct = some ext) :
    get_file_extension (some ct) fn = ext := by
  have hne : ct ≠ "" := by
    intro h0
    rw [h0, lookupExt_empty_none] at h
    exact Option.noConfusion h
  simp [get_file_extension, hne, h]

/-- C6 witness: `audio/mpeg` maps to `.mp3` even with an `.ogg`
filename. -/
theorem claim_C6_witness :
    get_file_extension (some "audio/mpeg") (some "x.ogg") = ".mp3" :=
  claim_C6_mapped_content_type "audio/mpeg" ".mp3" (some "x.ogg") rfl

/-- C7 counterexample: the filename `.bashrc` has a non-empty extension in
the sense of the claim (the substring from the last dot of its last path
component is `.bashrc` itself), yet `get_file_extension` falls through to
the `.wav` default, because `os.path.splitext` gives a dot-leading
basename with no later dot no extension. -/
theorem claim_C7_counterexample :
    claimedExt ".bashrc" = ".bashrc"
    ∧ get_file_extension none (some ".bashrc") = ".wav"
    ∧ get_file_extension none (some ".bashrc") ≠ claimedExt ".bashrc" := by
  refine ⟨rfl, rfl, ?_⟩
  intro h
  exact absurd h (by decide)

/-- C7 (amended): for every filename whose URL-decoded form has a
non-empty extension in the `os.path.splitext` sense (substring from the
last dot of the last path component, provided a non-dot character precedes
that dot within the component), and every content type that is absent,
empty, or not in the known mapping, `get_file_extension` returns that
extension as-is, with no validation against any known set. -/
theorem claim_C7_theorem (ct : Option String) (fn : String)
    (hct : ctUnmapped ct) (hext : splitextExt (unquote fn) ≠ "") :
    get_file_extension ct (some fn) = splitextExt (unquote fn) := by
  unfold get_file_extension
  rw [ct_branch_none ct hct]
  have hfn : fn ≠ "" := by
    intro h0
    subst h0
    exact hext rfl
  simp [hfn, hext]

/-- C7 witness: an unmapped content type with a URL-encoded filename. -/
theorem claim_C7_witness :
    get_file_extension (some "text/plain") (some "a%20b.mp3") = ".mp3" := by
  have h := claim_C7_theorem (some "text/plain") "a%20b.mp3"
    (Or.inr rfl) (by decide)
  rw [h]
  decide

/-- C8: `get_file_extension` raises no error (it is a total function of
its two optional string arguments) and always returns a string beginning
with a dot; in particular both `(None, None)` and `("unknown/type", None)`
give `.wav`. -/
theorem claim_C8_total_dot :
    (∀ ct fn : Option String, startsWithDot (get_file_extension ct fn) = true)
    ∧ get_file_extension none none = ".wav"
    ∧ get_file_extension (some "unknown/type") none = ".wav" := by
  refine ⟨?_, rfl, rfl⟩
  intro ct fn
  unfold get_file_extension
  cases hm : (ct.bind fun c => if c = "" then none else lookupExt MIME_TO_EXT c) with
  | some ext =>
    show startsWithDot ext = true
    cases ct with
    | none => exact Option.noConfusion hm
    | some c =>
      have hm2 : (if c = "" then none
          else lookupExt MIME_TO_EXT c) = some ext := hm
      by_cases hc : c = ""
      · rw [if_pos hc] at hm2
        exact Option.noConfusion hm2
      · rw [if_neg hc] at hm2
        exact lookupExt_dot MIME_TO_EXT c ext mime_vals_dot hm2
  | none =>
    cases fn with
    | none => rfl
    | some f =>
      by_cases hf : f = ""
      · subst hf
        rfl
      · by_cases he : splitextExt (unquote f) = ""
        · simp only [hf]
          simp [he]
          decide
        · rcases splitextExt_dot (unquote f) with h0 | h0
          · exact absurd h0 he
          · simp only [hf]
            simp [he]
            exact h0

/-- C1 counterexample: when writing the audio bytes to the just-created
temporary file raises, the file still exists on disk after `handler`
returns (the write happens before the `try`/`finally` that removes it),
refuting deletion on every exit path. -/
theorem claim_C1_counterexample :
    (handler pWriteFail evDirect []).tempPath = some "/tmp/tmpaudio.wav"
    ∧ containsFS (handler pWriteFail evDirect []).fs "/tmp/tmpaudio.wav"
        = true
    ∧ (handler pWriteFail evDirect []).resp.statusCode = 500 :=
  ⟨rfl, rfl, rfl⟩

/-- C1 (amended): whenever `handler` creates a temporary audio file and
the write of the audio bytes into it succeeds, the file does not exist on
disk after `handler` returns, on every exit path (success, model-call
failure, and any other exception raised after the write). -/
theorem claim_C1_theorem (p : Prims) (event : Json) (fs : FS)
    (path : String)
    (hw : p.writeErr = none)
    (hp : (handler p event fs).tempPath = some path) :
    containsFS (handler p event fs).fs path = false := by
  cases hps : parseStage p event with
  | error e =>
    rw [handler_error p event fs e hps] at hp
    exact Option.noConfusion hp
  | ok s =>
    cases s with
    | inl r =>
      rw [handler_inl p event fs r hps] at hp
      exact Option.noConfusion hp
    | inr t =>
      obtain ⟨audio, ct, fn⟩ := t
      have hfsEq := fileStage_noWrite p audio (get_file_extension ct fn) fs hw
      rcases hstep : transcribeStep p (get_file_extension ct fn)
          (p.tempName (get_file_extension ct fn))
          (insertFS (insertFS fs (p.tempName (get_file_extension ct fn)) [])
            (p.tempName (get_file_extension ct fn)) audio)
        with ⟨tres, tcalls⟩
      rw [hstep] at hfsEq
      cases tres with
      | ok r =>
        rw [handler_inr_ok p event fs audio ct fn r _ _ _ hps hfsEq] at hp ⊢
        cases hp
        exact containsFS_removeFS _ _
      | error e =>
        rw [handler_inr_error p event fs audio ct fn e _ _ _ hps hfsEq]
          at hp ⊢
        cases hp
        exact containsFS_removeFS _ _

/-- C1 witness: a successful run removes its temporary file. -/
theorem claim_C1_witness :
    containsFS (handler pGood evDirect []).fs "/tmp/tmpaudio.wav" = false :=
  claim_C1_theorem pGood evDirect [] "/tmp/tmpaudio.wav" rfl rfl

/-- C3: for every event whose logical body (parsed `body` for the
gateway shape, the event itself for the direct shape) lacks an `audio`
key, `handler` returns the fixed 400 response and performs no further
processing: the filesystem is untouched, no temporary file is created, and
the model is not invoked. -/
theorem claim_C3_missing_audio (p : Prims) (event : Json) (fs : FS)
    (b : Json)
    (hlb : logicalBody p event = .ok b)
    (hna : hasKeyP b "audio" = .ok false) :
    handler p event fs = ⟨resp400, fs, [], none⟩ :=
  handler_missing_audio p event fs b hlb hna

/-- C3 witness: the empty event gets the fixed 400 and nothing else
happens. -/
theorem claim_C3_witness :
    handler pGood evEmpty [] = ⟨resp400, [], [], none⟩ :=
  claim_C3_missing_audio pGood evEmpty [] (.obj []) rfl rfl

/-- C2: for every event, `handler` returns a well-formed envelope whose
status is 200, 400 or 500, and every exception that reaches the top-level
`except` block is converted into exactly the 500 response whose body is
`{"error": <stringified exception>}`; no exception propagates out. -/
theorem claim_C2_catch_all (p : Prims) (event : Json) (fs : FS) :
    ((handler p event fs).resp.statusCode = 200
      ∨ (handler p event fs).resp.statusCode = 400
      ∨ (handler p event fs).resp.statusCode = 500)
    ∧ (∀ e, raisedExc p event fs = some e
        → (handler p event fs).resp = resp500 e) := by
  cases hps : parseStage p event with
  | error e0 =>
    rw [handler_error p event fs e0 hps]
    refine ⟨Or.inr (Or.inr rfl), ?_⟩
    intro e he
    unfold raisedExc at he
    rw [hps] at he
    cases he
    rfl
  | ok s =>
    cases s with
    | inl r =>
      have hr := parseStage_inl p event r hps
      subst hr
      rw [handler_inl p event fs resp400 hps]
      refine ⟨Or.inr (Or.inl rfl), ?_⟩
      intro e he
      unfold raisedExc at he
      rw [hps] at he
      exact Option.noConfusion he
    | inr t =>
      obtain ⟨audio, ct, fn⟩ := t
      cases hw : p.writeErr with
      | some e0 =>
        have hfsEq := fileStage_write p audio (get_file_extension ct fn) fs
          e0 hw
        rw [handler_inr_error p event fs audio ct fn e0 _ _ _ hps hfsEq]
        refine ⟨Or.inr (Or.inr rfl), ?_⟩
        intro e he
        unfold raisedExc at he
        simp only [hps, hfsEq] at he
        cases he
        rfl
      | none =>
        have hfsEq := fileStage_noWrite p audio (get_file_extension ct fn)
          fs hw
        rcases hstep : transcribeStep p (get_file_extension ct fn)
            (p.tempName (get_file_extension ct fn))
            (insertFS (insertFS fs (p.tempName (get_file_extension ct fn))
              []) (p.tempName (get_file_extension ct fn)) audio)
          with ⟨tres, tcalls⟩
        rw [hstep] at hfsEq
        cases tres with
        | ok r =>
          rw [handler_inr_ok p event fs audio ct fn r _ _ _ hps hfsEq]
          refine ⟨Or.inl ?_, ?_⟩
          · exact transcribeStep_status p (get_file_extension ct fn)
              (p.tempName (get_file_extension ct fn)) _ r tcalls hstep
          · intro e he
            unfold raisedExc at he
            simp only [hps, hfsEq] at he
            exact Option.noConfusion he
        | error e0 =>
          rw [handler_inr_error p event fs audio ct fn e0 _ _ _ hps hfsEq]
          refine ⟨Or.inr (Or.inr rfl), ?_⟩
          intro e he
          unfold raisedExc at he
          simp only [hps, hfsEq] at he
          cases he
          rfl

/-- C2 witness: a model failure surfaces as the 500 envelope carrying the
stringified exception. -/
theorem claim_C2_witness :
    (handler pModelFail evDirect []).resp = resp500 "RuntimeError: boom" :=
  (claim_C2_catch_all pModelFail evDirect []).2 "RuntimeError: boom" rfl

/-- C4: for every event carrying base64-decoded audio bytes, when the
write succeeds and the model call returns a result whose `text` field is
the string `t`, `handler` returns status 200 with `transcription` equal to
`t` (computed by the model from a temporary file containing exactly the
decoded bytes), `model` equal to the configured model size, and `fileType`
equal to the resolved extension without its leading dot. -/
theorem claim_C4_success (p : Prims) (event : Json) (fs : FS)
    (audio : List Nat) (ct fn : Option String) (result : Json) (t : String)
    (hps : parseStage p event = .ok (.inr (audio, ct, fn)))
    (hw : p.writeErr = none)
    (htr : p.transcribe (p.tempName (get_file_extension ct fn)) audio
        = .ok result)
    (hgt : getItem result "text" = .ok (.str t)) :
    (handler p event fs).resp =
      ⟨200, .obj
        [ ("transcription", .str t),
          ("model", .str (MODEL_SIZE p)),
          ("fileType", .str (stripDot (get_file_extension ct fn))) ]⟩
    ∧ (handler p event fs).calls
        = [(p.tempName (get_file_extension ct fn), audio)] := by
  have hfsEq := fileStage_noWrite p audio (get_file_extension ct fn) fs hw
  have hstep := transcribeStep_eval p (get_file_extension ct fn)
      (p.tempName (get_file_extension ct fn))
      (insertFS (insertFS fs (p.tempName (get_file_extension ct fn)) [])
        (p.tempName (get_file_extension ct fn)) audio)
      audio result t (lookupFS_insertFS _ _ _) htr hgt
  rw [hstep] at hfsEq
  rw [handler_inr_ok p event fs audio ct fn _ _ _ _ hps hfsEq]
  exact ⟨rfl, rfl⟩

/-- C4 witness: the direct wav scenario of the specification. -/
theorem claim_C4_witness :
    (handler pGood evDirect []).resp =
      ⟨200, .obj
        [ ("transcription", .str "hello world"),
          ("model", .str "tiny.en"),
          ("fileType", .str "wav") ]⟩
    ∧ (handler pGood evDirect []).calls
        = [("/tmp/tmpaudio.wav", [0, 0, 0])] :=
  claim_C4_success pGood evDirect [] [0, 0, 0] (some "audio/wav") none
    (.obj [("text", .str "hello world")]) "hello world" rfl rfl rfl rfl

/-- C5 counterexample: the event whose `isBase64Encoded` flag is the
number 1 (truthy, but not the boolean `true`) and whose `body` is the
base64 text of `{}`.  The code base64-decodes and reaches the 400 branch;
under the reading of the claim (decode only when the flag is `true`) the
body
would be parsed directly and raise. -/
theorem claim_C5_counterexample :
    parseStage pGood evB64Num = .ok (.inl resp400)
    ∧ (logicalBodyClaimed pGood evB64Num >>= extractAudio)
        = .error "json.decoder.JSONDecodeError: Expecting value"
    ∧ parseStage pGood evB64Num
        ≠ logicalBodyClaimed pGood evB64Num >>= extractAudio :=
  ⟨rfl, rfl, fun h => Except.noConfusion h⟩

/-- C5 (amended): the parse stage treats an event as gateway-wrapped
exactly when it carries a `body` field and as direct otherwise, and in the
gateway case the logical body is obtained by base64-decoding `body` and
parsing it as JSON when `isBase64Encoded` is truthy in the Python sense
(absent, `false`, `0`, `""` meaning not encoded), and by parsing `body`
directly as JSON otherwise; the rest of the handling consumes only that
logical body. -/
theorem claim_C5_theorem (p : Prims) (event : Json) :
    parseStage p event = logicalBody p event >>= extractAudio :=
  parseStage_factor p event

/-- C9: for every event that contains a `body` field, `handler` ignores
top-level `audio`, `contentType` and `filename` fields: replacing any of
them changes nothing, and when the parsed body lacks an `audio` key the
response is the 400 even though a top-level `audio` field is present. -/
theorem claim_C9_top_level_ignored (p : Prims) (fs : FS)
    (efs : List (String × Json)) (bv : Json)
    (hb : findField efs "body" = some bv) :
    (∀ k v, (k = "audio" ∨ k = "contentType" ∨ k = "filename")
      → handler p (setField (.obj efs) k v) fs = handler p (.obj efs) fs)
    ∧ (∀ b, logicalBody p (.obj efs) = .ok b
        → hasKeyP b "audio" = .ok false
        → ∀ a, findField efs "audio" = some a
        → handler p (.obj efs) fs = ⟨resp400, fs, [], none⟩) := by
  constructor
  · intro k v hk
    have hk1 : k ≠ "body" := by
      rcases hk with rfl | rfl | rfl <;> decide
    have hk2 : k ≠ "isBase64Encoded" := by
      rcases hk with rfl | rfl | rfl <;> decide
    exact handler_congr p _ _ fs
      (parseStage_setField p efs k v hk1 hk2 (by rw [hb]; rfl))
  · intro b hlb hna a ha
    exact handler_missing_audio p (.obj efs) fs b hlb hna

/-- C9 witness: a gateway event whose body is `{}` while the event itself
carries well-formed audio at top level. -/
theorem claim_C9_witness :
    handler pGood (setField evGatewayTop "audio" .null) []
        = handler pGood evGatewayTop []
    ∧ handler pGood evGatewayTop [] = ⟨resp400, [], [], none⟩ :=
  ⟨(claim_C9_top_level_ignored pGood []
      [("body", .str "{}"), ("audio", .str "AAAA")] (.str "{}") rfl).1
      "audio" .null (Or.inl rfl),
   (claim_C9_top_level_ignored pGood []
      [("body", .str "{}"), ("audio", .str "AAAA")] (.str "{}") rfl).2
      (.obj []) rfl rfl (.str "AAAA") rfl⟩

/-- C10: the missing-audio check tests only key presence: when the
logical body maps `audio` to the empty string and the write succeeds,
`handler` decodes it to zero bytes, writes an empty temporary file,
invokes the model exactly once on that empty file, and does not return the
400 missing-audio response. -/
theorem claim_C10_empty_audio (p : Prims) (event : Json) (fs : FS)
    (b : Json)
    (hlb : logicalBody p event = .ok b)
    (ha : Json.lookup b "audio" = some (.str ""))
    (hw : p.writeErr = none) :
    (handler p event fs).calls
      = [(p.tempName (get_file_extension (metaStr b "contentType")
            (metaStr b "filename")), [])]
    ∧ (handler p event fs).resp.statusCode ≠ 400 := by
  cases b with
  | null => exact absurd ha (by simp [Json.lookup])
  | bool x => exact absurd ha (by simp [Json.lookup])
  | num x => exact absurd ha (by simp [Json.lookup])
  | str x => exact absurd ha (by simp [Json.lookup])
  | arr x => exact absurd ha (by simp [Json.lookup])
  | obj bfs =>
    have ha2 : findField bfs "audio" = some (.str "") := ha
    have hps : parseStage p event
        = .ok (.inr ([], metaStr (.obj bfs) "contentType",
            metaStr (.obj bfs) "filename")) := by
      rw [parseStage_factor, hlb]
      simp only [ok_bind]
      unfold extractAudio
      have hk : hasKeyP (.obj bfs) "audio" = .ok true := by
        simp [hasKeyP, ha2]
      rw [hk]
      simp only [ok_bind, if_true]
      have hgi : getItem (.obj bfs) "audio" = .ok (.str "") := by
        simp [getItem, ha2]
      rw [hgi]
      rw [← metaStr_eq bfs "contentType", ← metaStr_eq bfs "filename"]
      rfl
    have hfsEq := fileStage_noWrite p []
      (get_file_extension (metaStr (.obj bfs) "contentType")
        (metaStr (.obj bfs) "filename")) fs hw
    have hcalls := transcribeStep_calls p
      (get_file_extension (metaStr (.obj bfs) "contentType")
        (metaStr (.obj bfs) "filename"))
      (p.tempName (get_file_extension (metaStr (.obj bfs) "contentType")
        (metaStr (.obj bfs) "filename")))
      (insertFS (insertFS fs
        (p.tempName (get_file_extension (metaStr (.obj bfs) "contentType")
          (metaStr (.obj bfs) "filename"))) [])
        (p.tempName (get_file_extension (metaStr (.obj bfs) "contentType")
          (metaStr (.obj bfs) "filename"))) [])
      [] (lookupFS_insertFS _ _ _)
    rcases hstep : transcribeStep p
        (get_file_extension (metaStr (.obj bfs) "contentType")
          (metaStr (.obj bfs) "filename"))
        (p.tempName (get_file_extension (metaStr (.obj bfs) "contentType")
          (metaStr (.obj bfs) "filename")))
        (insertFS (insertFS fs
          (p.tempName (get_file_extension (metaStr (.obj bfs) "contentType")
            (metaStr (.obj bfs) "filename"))) [])
          (p.tempName (get_file_extension (metaStr (.obj bfs) "contentType")
            (metaStr (.obj bfs) "filename"))) [])
      with ⟨tres, tcalls⟩
    rw [hstep] at hfsEq hcalls
    cases tres with
    | ok r =>
      rw [handler_inr_ok p event fs [] _ _ r _ _ _ hps hfsEq]
      constructor
      · exact hcalls
      · have h200 := transcribeStep_status p _ _ _ r tcalls hstep
        show r.statusCode ≠ 400
        omega
    | error e =>
      rw [handler_inr_error p event fs [] _ _ e _ _ _ hps hfsEq]
      constructor
      · exact hcalls
      · show (500 : Nat) ≠ 400
        decide

/-- C10 witness: a direct event with `audio` equal to the empty string is
transcribed from an empty file and answered with 200. -/
theorem claim_C10_witness :
    (handler pGood evEmptyAudio []).calls = [("/tmp/tmpaudio.wav", [])]
    ∧ (handler pGood evEmptyAudio []).resp.statusCode ≠ 400 :=
  claim_C10_empty_audio pGood evEmptyAudio [] (.obj [("audio", .str "")])
    rfl rfl rfl
